import Mathlib

/-!
Shallow embedding of the `class-resolver` package (the full `Resolver`
class: registration, priority-sorted matching, fallback substitution and
the three execution helpers), together with proofs about it.

Modelling conventions:
* A JS token value is modelled by `Token` (string, number, boolean, null,
  or a flat object of string fields).
* A handler is a record of its `supports` predicate, its `handle` action
  and an optional `priority` property.  A `handle` call either returns a
  value or throws, modelled by `Except String β` (the error is the thrown
  value).  The optional `priority` property may hold a non-numeric value
  (`PrioVal.str`), mirroring a JS object whose `priority` field is not a
  number.
* `Array.prototype.sort` is stable (ECMAScript 2019); with the comparator
  `(a, b) => priorityB - priorityA` it produces the unique stable
  descending-priority ordering, embedded here as a stable insertion sort.
* Methods that throw return `Except RError _`.
-/

namespace ClassResolver

/-- A JS value used as the "type" token passed to `supports`. -/
inductive Token where
  | str (s : String)
  | num (n : Int)
  | boolean (b : Bool)
  | null
  | obj (fields : List (String × String))
  deriving DecidableEq, Repr

/-- The `String(x)` conversion of a token. -/
def tokenToString : Token → String
  | Token.str s => s
  | Token.num n => toString n
  | Token.boolean b => if b then "true" else "false"
  | Token.null => "null"
  | Token.obj _ => "[object Object]"

/-- Whether `typeof x === 'object'` for a token (true for objects and for `null`). -/
def typeofIsObject : Token → Bool
  | Token.obj _ => true
  | Token.null => true
  | _ => false

/-- The `JSON.stringify(x)` rendering of a token (the resolver only applies it to
non-null objects). -/
def jsonStringify : Token → String
  | Token.str s => "\"" ++ s ++ "\""
  | Token.num n => toString n
  | Token.boolean b => if b then "true" else "false"
  | Token.null => "null"
  | Token.obj fields =>
      "\x7b" ++ String.intercalate ","
        (fields.map (fun kv => "\"" ++ kv.1 ++ "\":\"" ++ kv.2 ++ "\"")) ++ "\x7d"

/-- The string rendering used in the `Unsupported type:` message:
`typeof type === 'object' && type !== null ? JSON.stringify(type) : String(type)`. -/
def renderUnsupported (t : Token) : String :=
  if typeofIsObject t = true ∧ t ≠ Token.null then jsonStringify t else tokenToString t

/-- The value stored in a handler's optional `priority` property: a number,
or some non-numeric JS value (modelled by a string). -/
inductive PrioVal where
  | num (n : Int)
  | str (s : String)
  deriving DecidableEq, Repr

/-- A resolver target: `supports(type)`, `handle(...args)` (which may throw,
modelled by `Except`), and an optional `priority` property. -/
structure Handler (α β : Type) where
  supports : Token → Bool
  handle : List α → Except String β
  priority : Option PrioVal := none

/-- The errors thrown by the resolver itself, plus propagated handler errors. -/
inductive RError where
  | unassignedTarget
  | unsupportedType (msg : String)
  | handlerError (e : String)
  deriving DecidableEq, Repr

/-- The resolver state: the registered `updaters` array and the optional
`fallbackHandler`. -/
structure Resolver (α β : Type) where
  updaters : List (Handler α β) := []
  fallbackHandler : Option (List α → Except String β) := none

/-- Source `getPriority`: the handler's `priority` property when it is a number,
otherwise `0`. -/
def getPriority {α β : Type} (h : Handler α β) : Int :=
  match h.priority with
  | some (PrioVal.num n) => n
  | _ => 0

/-- One insertion step of the stable descending-priority sort: the new
element `h` (earlier in the original array) goes before every element of
smaller or equal priority. -/
def insertHandler {α β : Type} (h : Handler α β) : List (Handler α β) → List (Handler α β)
  | [] => [h]
  | x :: xs =>
      if getPriority x ≤ getPriority h then h :: x :: xs
      else x :: insertHandler h xs

/-- Source `sortByPriority`: stable sort by descending priority, the behaviour of
`[...handlers].sort((a, b) => getPriority(b) - getPriority(a))` under the
ECMAScript stable-sort guarantee. -/
def sortByPriority {α β : Type} (handlers : List (Handler α β)) : List (Handler α β) :=
  handlers.foldr insertHandler []

/-- The handler-shaped wrapper synthesized around the fallback action:
`{ supports: () => true, handle: this.fallbackHandler }`. -/
def fallbackWrapper {α β : Type} (fb : List α → Except String β) : Handler α β :=
  { supports := fun _ => true, handle := fb, priority := none }

/-- Source `set(updaters)`: overwrites the registered array. -/
def Resolver.set {α β : Type} (r : Resolver α β) (updaters : List (Handler α β)) :
    Resolver α β :=
  { r with updaters := updaters }

/-- Source `getArgs(args)`: returns a copy `[...args]` of the argument array. -/
def getArgs {α β : Type} (args : List (Handler α β)) : List (Handler α β) :=
  args

/-- Source `setUpdaters(...args)`: `this.set(this.getArgs(args))`. -/
def Resolver.setUpdaters {α β : Type} (r : Resolver α β) (args : List (Handler α β)) :
    Resolver α β :=
  r.set (getArgs args)

/-- Source `addUpdater(updater)`: pushes one handler onto the registered array. -/
def Resolver.addUpdater {α β : Type} (r : Resolver α β) (updater : Handler α β) :
    Resolver α β :=
  { r with updaters := r.updaters ++ [updater] }

/-- Source `setFallbackHandler(handler)`: installs or replaces the fallback action. -/
def Resolver.setFallbackHandler {α β : Type} (r : Resolver α β)
    (handler : List α → Except String β) : Resolver α β :=
  { r with fallbackHandler := some handler }

/-- Source `resolve(type)`: throw `UnassignedTarget` on an empty registry; filter by
`supports`, sort by priority, take the first; otherwise the fallback wrapper
when installed, else throw `UnsupportedType`. -/
def Resolver.resolve {α β : Type} (r : Resolver α β) (t : Token) :
    Except RError (Handler α β) :=
  if r.updaters.length < 1 then
    Except.error RError.unassignedTarget
  else
    let matchingHandlers := r.updaters.filter (fun u => u.supports t)
    let sortedHandlers := sortByPriority matchingHandlers
    match sortedHandlers.head? with
    | some target => Except.ok target
    | none =>
        match r.fallbackHandler with
        | some fb => Except.ok (fallbackWrapper fb)
        | none =>
            Except.error (RError.unsupportedType ("Unsupported type: " ++ renderUnsupported t))

/-- Source `resolveAll(type)`: throw `UnassignedTarget` on an empty registry; filter
by `supports`; when no handler matches, return the fallback wrapper as a
singleton (if installed) or the empty array; otherwise the sorted matches. -/
def Resolver.resolveAll {α β : Type} (r : Resolver α β) (t : Token) :
    Except RError (List (Handler α β)) :=
  if r.updaters.length < 1 then
    Except.error RError.unassignedTarget
  else
    let targets := r.updaters.filter (fun u => u.supports t)
    if targets.length = 0 then
      match r.fallbackHandler with
      | some fb => Except.ok [fallbackWrapper fb]
      | none => Except.ok []
    else
      Except.ok (sortByPriority targets)

/-- The behaviour of `targets.map(target => target.handle(...args))` where a thrown exception
propagates out of the callback: invocations happen in array order and stop at
the first throw. -/
def mapHandle {α β : Type} (args : List α) : List (Handler α β) → Except String (List β)
  | [] => Except.ok []
  | h :: rest =>
      match h.handle args with
      | Except.error e => Except.error e
      | Except.ok v => (mapHandle args rest).map (fun vs => v :: vs)

/-- Source `handleAll(type, ...args)`: `resolveAll` then `map(handle)`. -/
def Resolver.handleAll {α β : Type} (r : Resolver α β) (t : Token) (args : List α) :
    Except RError (List β) :=
  match r.resolveAll t with
  | Except.error e => Except.error e
  | Except.ok targets =>
      match mapHandle args targets with
      | Except.error e => Except.error (RError.handlerError e)
      | Except.ok vs => Except.ok vs

/-- The behaviour of `Promise.all(promises)`: fulfilled with the values in array order when
every promise fulfils; rejected with a rejection otherwise (which rejection
wins depends on timing; the embedding takes the first in array order — the
theorems below only use the all-fulfilled case). -/
def promiseAll {β : Type} : List (Except String β) → Except String (List β)
  | [] => Except.ok []
  | Except.ok v :: rest => (promiseAll rest).map (fun vs => v :: vs)
  | Except.error e :: _ => Except.error e

/-- Source `handleAllAsync(type, ...args)`: `resolveAll`, start every `handle`, then
`Promise.all`. -/
def Resolver.handleAllAsync {α β : Type} (r : Resolver α β) (t : Token) (args : List α) :
    Except RError (List β) :=
  match r.resolveAll t with
  | Except.error e => Except.error e
  | Except.ok targets =>
      match promiseAll (targets.map (fun tg => tg.handle args)) with
      | Except.error e => Except.error (RError.handlerError e)
      | Except.ok vs => Except.ok vs

/-- The `for (const target of targets)` loop of `handleAllSequential`: await
each `handle` in turn, pushing its result onto `results`; a rejection
propagates immediately. -/
def seqLoop {α β : Type} (args : List α) :
    List (Handler α β) → List β → Except String (List β)
  | [], results => Except.ok results
  | h :: rest, results =>
      match h.handle args with
      | Except.error e => Except.error e
      | Except.ok v => seqLoop args rest (results ++ [v])

/-- Source `handleAllSequential(type, ...args)`: `resolveAll`, then the sequential
await loop starting from an empty `results` array. -/
def Resolver.handleAllSequential {α β : Type} (r : Resolver α β) (t : Token)
    (args : List α) : Except RError (List β) :=
  match r.resolveAll t with
  | Except.error e => Except.error e
  | Except.ok targets =>
      match seqLoop args targets [] with
      | Except.error e => Except.error (RError.handlerError e)
      | Except.ok vs => Except.ok vs

/-- Observation of the sequential loop: how many handlers have their `handle`
invoked (each iteration invokes exactly one; an error aborts the loop). -/
def seqInvoked {α β : Type} (args : List α) : List (Handler α β) → Nat
  | [] => 0
  | h :: rest =>
      match h.handle args with
      | Except.error _ => 1
      | Except.ok _ => 1 + seqInvoked args rest

/-- Replace a non-numeric `priority` property by an absent one, leaving
`supports`, `handle` and numeric priorities untouched. -/
def stripHandler {α β : Type} (h : Handler α β) : Handler α β :=
  match h.priority with
  | some (PrioVal.num _) => h
  | _ => { h with priority := none }

/-- Apply `stripHandler` to every registered handler. -/
def stripResolver {α β : Type} (r : Resolver α β) : Resolver α β :=
  { updaters := r.updaters.map stripHandler, fallbackHandler := r.fallbackHandler }

namespace Ex

/-- A concrete fallback action. -/
def fb : List Nat → Except String Nat := fun _ => Except.ok 99

/-- Handler matching only the token `"a"`, priority 10. -/
def hLow : Handler Nat Nat :=
  { supports := fun t => decide (t = Token.str "a"),
    handle := fun _ => Except.ok 1,
    priority := some (PrioVal.num 10) }

/-- Handler matching only the token `"a"`, priority 100. -/
def hHigh : Handler Nat Nat :=
  { supports := fun t => decide (t = Token.str "a"),
    handle := fun _ => Except.ok 2,
    priority := some (PrioVal.num 100) }

/-- Handler matching no token. -/
def hNope : Handler Nat Nat :=
  { supports := fun _ => false, handle := fun _ => Except.ok 3 }

/-- Catch-all handler returning 10. -/
def hOk10 : Handler Nat Nat :=
  { supports := fun _ => true, handle := fun _ => Except.ok 10 }

/-- Catch-all handler returning 20. -/
def hOk20 : Handler Nat Nat :=
  { supports := fun _ => true, handle := fun _ => Except.ok 20 }

/-- Catch-all handler that always throws. -/
def hBoom : Handler Nat Nat :=
  { supports := fun _ => true, handle := fun _ => Except.error "boom" }

/-- Catch-all handler returning 7. -/
def hTail : Handler Nat Nat :=
  { supports := fun _ => true, handle := fun _ => Except.ok 7 }

/-- Resolver with a low-priority match, a non-match and a high-priority match. -/
def rMain : Resolver Nat Nat := { updaters := [hLow, hNope, hHigh] }

/-- Empty resolver with a fallback installed. -/
def rEmptyFb : Resolver Nat Nat := { updaters := [], fallbackHandler := some fb }

/-- Resolver whose only handler never matches, with a fallback installed. -/
def rNoMatchFb : Resolver Nat Nat := { updaters := [hNope], fallbackHandler := some fb }

/-- Resolver whose only handler never matches, with no fallback. -/
def rNoMatchNoFb : Resolver Nat Nat := { updaters := [hNope] }

/-- Resolver whose second handler throws and third would succeed. -/
def rSeq : Resolver Nat Nat := { updaters := [hOk10, hBoom, hTail] }

/-- Resolver `[hOk10, hBoom]`: one success then a throw. -/
def rSeqA : Resolver Nat Nat := { updaters := [hOk10, hBoom] }

/-- Resolver `[hOk20, hBoom]`: a different success then the same throw. -/
def rSeqB : Resolver Nat Nat := { updaters := [hOk20, hBoom] }

/-- Resolver holding a single handler, used for `setUpdaters`. -/
def rC9 : Resolver Nat Nat := { updaters := [hLow] }

end Ex

/-! ### Helper lemmas about the stable priority sort -/

theorem sortByPriority_nil {α β : Type} :
    sortByPriority ([] : List (Handler α β)) = [] := rfl

theorem insertHandler_perm {α β : Type} (h : Handler α β) (l : List (Handler α β)) :
    (insertHandler h l).Perm (h :: l) := by
  induction l with
  | nil => exact List.Perm.refl _
  | cons x xs ih =>
      simp only [insertHandler]
      split
      · exact List.Perm.refl _
      · exact List.Perm.trans (List.Perm.cons x ih) (List.Perm.swap h x xs)

theorem sortByPriority_perm {α β : Type} (l : List (Handler α β)) :
    (sortByPriority l).Perm l := by
  induction l with
  | nil => exact List.Perm.refl _
  | cons x xs ih =>
      exact List.Perm.trans (insertHandler_perm x (sortByPriority xs)) (List.Perm.cons x ih)

theorem insertHandler_pairwise {α β : Type} (h : Handler α β) (l : List (Handler α β))
    (hs : l.Pairwise (fun a b => getPriority b ≤ getPriority a)) :
    (insertHandler h l).Pairwise (fun a b => getPriority b ≤ getPriority a) := by
  induction l with
  | nil => simp [insertHandler]
  | cons x xs ih =>
      rw [List.pairwise_cons] at hs
      simp only [insertHandler]
      split
      · rename_i hle
        rw [List.pairwise_cons]
        refine ⟨?_, List.pairwise_cons.mpr hs⟩
        intro y hy
        rcases List.mem_cons.mp hy with hy | hy
        · exact hy ▸ hle
        · exact le_trans (hs.1 y hy) hle
      · rename_i hgt
        rw [List.pairwise_cons]
        refine ⟨?_, ih hs.2⟩
        intro y hy
        have hy' := (insertHandler_perm h xs).mem_iff.mp hy
        rcases List.mem_cons.mp hy' with hy' | hy'
        · exact hy' ▸ le_of_lt (lt_of_not_le hgt)
        · exact hs.1 y hy'

theorem sortByPriority_pairwise {α β : Type} (l : List (Handler α β)) :
    (sortByPriority l).Pairwise (fun a b => getPriority b ≤ getPriority a) := by
  induction l with
  | nil => simp [sortByPriority]
  | cons x xs ih => exact insertHandler_pairwise x (sortByPriority xs) ih

theorem insertHandler_filter_key {α β : Type} (h : Handler α β) (l : List (Handler α β))
    (p : Int) :
    (insertHandler h l).filter (fun x => decide (getPriority x = p)) =
      (h :: l).filter (fun x => decide (getPriority x = p)) := by
  induction l with
  | nil => rfl
  | cons x xs ih =>
      simp only [insertHandler]
      split
      · rfl
      · rename_i hgt
        have hlt : getPriority h < getPriority x := lt_of_not_le hgt
        by_cases hx : getPriority x = p
        · by_cases hh : getPriority h = p
          · exfalso
            rw [hh, hx] at hlt
            exact lt_irrefl p hlt
          · simp [List.filter_cons, hx, hh] at ih ⊢
            exact ih
        · by_cases hh : getPriority h = p
          · simp [List.filter_cons, hx, hh] at ih ⊢
            exact ih
          · simp [List.filter_cons, hx, hh] at ih ⊢
            exact ih

theorem sortByPriority_filter_key {α β : Type} (l : List (Handler α β)) (p : Int) :
    (sortByPriority l).filter (fun x => decide (getPriority x = p)) =
      l.filter (fun x => decide (getPriority x = p)) := by
  induction l with
  | nil => rfl
  | cons x xs ih =>
      have h1 := insertHandler_filter_key x (sortByPriority xs) p
      simp only [sortByPriority, List.foldr_cons] at h1 ih ⊢
      rw [h1, List.filter_cons, List.filter_cons, ih]

theorem find_eq_head_filter {γ : Type} (p : γ → Bool) (l : List γ) :
    l.find? p = (l.filter p).head? := by
  induction l with
  | nil => rfl
  | cons x xs ih =>
      by_cases hx : p x = true
      · rw [List.find?_cons_of_pos _ hx, List.filter_cons_of_pos hx, List.head?_cons]
      · rw [List.find?_cons_of_neg _ (by simp [hx]),
          List.filter_cons_of_neg (by simp [hx]), ih]

/-! ### Helper lemmas about the execution helpers -/

theorem mapHandle_promiseAll_ok {α β : Type} (args : List α) (l : List (Handler α β))
    (hok : ∀ h ∈ l, (h.handle args).isOk = true) :
    ∃ vs, mapHandle args l = Except.ok vs ∧
      promiseAll (l.map (fun h => h.handle args)) = Except.ok vs ∧
      vs.length = l.length ∧
      ∀ i : Nat, (l[i]?).map (fun h => h.handle args) = (vs[i]?).map Except.ok := by
  induction l with
  | nil => exact ⟨[], rfl, rfl, rfl, fun i => by cases i <;> rfl⟩
  | cons h rest ih =>
      have hh := hok h (List.mem_cons_self h rest)
      cases hv : h.handle args with
      | error e =>
          rw [hv] at hh
          simp [Except.isOk, Except.toBool] at hh
      | ok v =>
          obtain ⟨vs, h1, h2, hlen, h3⟩ := ih (fun x hx => hok x (List.mem_cons_of_mem h hx))
          refine ⟨v :: vs, ?_, ?_, ?_, ?_⟩
          · simp [mapHandle, hv, h1, Except.map]
          · simp [promiseAll, List.map_cons, hv, h2, Except.map]
          · simp [hlen]
          · intro i
            cases i with
            | zero => simp [hv]
            | succ n => simpa using h3 n

theorem seqLoop_ok {α β : Type} (args : List α) (l : List (Handler α β))
    (hok : ∀ h ∈ l, (h.handle args).isOk = true) :
    ∀ acc, ∃ vs, seqLoop args l acc = Except.ok (acc ++ vs) ∧
      vs.length = l.length ∧
      ∀ i : Nat, (l[i]?).map (fun h => h.handle args) = (vs[i]?).map Except.ok := by
  induction l with
  | nil =>
      intro acc
      exact ⟨[], by simp [seqLoop], rfl, fun i => by cases i <;> rfl⟩
  | cons h rest ih =>
      intro acc
      have hh := hok h (List.mem_cons_self h rest)
      cases hv : h.handle args with
      | error e =>
          rw [hv] at hh
          simp [Except.isOk, Except.toBool] at hh
      | ok v =>
          obtain ⟨vs, h1, hlen, h2⟩ :=
            ih (fun x hx => hok x (List.mem_cons_of_mem h hx)) (acc ++ [v])
          refine ⟨v :: vs, ?_, ?_, ?_⟩
          · simp only [seqLoop, hv, h1]
            simp
          · simp [hlen]
          · intro i
            cases i with
            | zero => simp [hv]
            | succ n => simpa using h2 n

theorem seqLoop_error {α β : Type} (args : List α) (pre : List (Handler α β))
    (hf : Handler α β) (post : List (Handler α β)) (e : String)
    (hpre : ∀ h ∈ pre, (h.handle args).isOk = true)
    (hfail : hf.handle args = Except.error e) :
    ∀ acc, seqLoop args (pre ++ hf :: post) acc = Except.error e := by
  induction pre with
  | nil =>
      intro acc
      simp [seqLoop, hfail]
  | cons h rest ih =>
      intro acc
      have hh := hpre h (List.mem_cons_self h rest)
      cases hv : h.handle args with
      | error e2 =>
          rw [hv] at hh
          simp [Except.isOk, Except.toBool] at hh
      | ok v =>
          simp only [List.cons_append, seqLoop, hv]
          exact ih (fun x hx => hpre x (List.mem_cons_of_mem h hx)) _

theorem seqInvoked_first_failure {α β : Type} (args : List α) (pre : List (Handler α β))
    (hf : Handler α β) (post : List (Handler α β)) (e : String)
    (hpre : ∀ h ∈ pre, (h.handle args).isOk = true)
    (hfail : hf.handle args = Except.error e) :
    seqInvoked args (pre ++ hf :: post) = pre.length + 1 := by
  induction pre with
  | nil => simp [seqInvoked, hfail]
  | cons h rest ih =>
      have hh := hpre h (List.mem_cons_self h rest)
      cases hv : h.handle args with
      | error e2 =>
          rw [hv] at hh
          simp [Except.isOk, Except.toBool] at hh
      | ok v =>
          simp only [List.cons_append, List.append_eq, seqInvoked, hv, List.length_cons]
          rw [ih (fun x hx => hpre x (List.mem_cons_of_mem h hx))]
          omega

/-! ### Helper lemmas about stripping non-numeric priorities -/

theorem stripHandler_supports {α β : Type} (h : Handler α β) :
    (stripHandler h).supports = h.supports := by
  unfold stripHandler
  split <;> rfl

theorem stripHandler_getPriority {α β : Type} (h : Handler α β) :
    getPriority (stripHandler h) = getPriority h := by
  cases h with
  | mk sup hd pr =>
      cases pr with
      | none => rfl
      | some pv =>
          cases pv with
          | num n => rfl
          | str s => rfl

theorem insertHandler_map_strip {α β : Type} (h : Handler α β) (l : List (Handler α β)) :
    insertHandler (stripHandler h) (l.map stripHandler) =
      (insertHandler h l).map stripHandler := by
  induction l with
  | nil => rfl
  | cons x xs ih =>
      by_cases hc : getPriority x ≤ getPriority h
      · simp [insertHandler, hc, stripHandler_getPriority]
      · simp [insertHandler, hc, stripHandler_getPriority, ih]

theorem sortByPriority_map_strip {α β : Type} (l : List (Handler α β)) :
    sortByPriority (l.map stripHandler) = (sortByPriority l).map stripHandler := by
  induction l with
  | nil => rfl
  | cons x xs ih =>
      simp only [sortByPriority, List.foldr_cons, List.map_cons] at ih ⊢
      rw [ih]
      exact insertHandler_map_strip x _

theorem filter_supports_map_strip {α β : Type} (t : Token) (l : List (Handler α β)) :
    (l.map stripHandler).filter (fun u => u.supports t) =
      (l.filter (fun u => u.supports t)).map stripHandler := by
  induction l with
  | nil => rfl
  | cons x xs ih =>
      simp only [List.map_cons, List.filter_cons, stripHandler_supports]
      by_cases hx : x.supports t = true
      · simp [hx, ih]
      · simp [hx, ih]

/-! ### Claim theorems -/

/-- C3: for every resolver whose registered handler sequence is empty and for
every token, both `resolve` and `resolveAll` throw the `UnassignedTarget`
error, whether or not a fallback handler is installed. -/
theorem empty_resolver_unassigned (α β : Type) (r : Resolver α β) (t : Token)
    (he : r.updaters = []) :
    r.resolve t = Except.error RError.unassignedTarget ∧
    r.resolveAll t = Except.error RError.unassignedTarget := by
  unfold Resolver.resolve Resolver.resolveAll
  rw [he]
  simp

/-- C3 witness: the concrete empty resolver (with a fallback installed)
throws `UnassignedTarget` from both `resolve` and `resolveAll`. -/
theorem empty_resolver_unassigned_witness :
    Ex.rEmptyFb.resolve (Token.str "a") = Except.error RError.unassignedTarget ∧
    Ex.rEmptyFb.resolveAll (Token.str "a") = Except.error RError.unassignedTarget :=
  empty_resolver_unassigned Nat Nat Ex.rEmptyFb (Token.str "a") rfl

/-- C9 counterexample: `setUpdaters` does not append.  Starting from a
resolver holding one handler, `setUpdaters` with one incoming handler leaves
a one-element sequence, not the two-element concatenation the claim
demands. -/
theorem setUpdaters_not_append :
    (Ex.rC9.setUpdaters [Ex.hHigh]).updaters ≠ Ex.rC9.updaters ++ [Ex.hHigh] := by
  intro hcon
  have hlen := congrArg List.length hcon
  simp [Ex.rC9, Resolver.setUpdaters, Resolver.set, getArgs] at hlen

/-- C9 amended: for every resolver state and every non-empty list of incoming
handlers, `setUpdaters` replaces the registered sequence with exactly the
incoming handlers, discarding the previously registered entries. -/
theorem setUpdaters_replaces (α β : Type) (r : Resolver α β)
    (incoming : List (Handler α β)) (_hne : incoming ≠ []) :
    (r.setUpdaters incoming).updaters = incoming := rfl

/-- C9 witness: `setUpdaters` on the concrete one-handler resolver with one
incoming handler yields exactly the incoming list. -/
theorem setUpdaters_replaces_witness :
    (Ex.rC9.setUpdaters [Ex.hHigh]).updaters = [Ex.hHigh] :=
  setUpdaters_replaces Nat Nat Ex.rC9 [Ex.hHigh] (List.cons_ne_nil _ _)

/-- C2 counterexample: with one registered (non-matching) handler and a
fallback installed, `resolveAll` returns the synthesized fallback wrapper,
not the (empty) subset of matching registered handlers the claim demands for
every token. -/
theorem resolveAll_fallback_not_matching_subset :
    Ex.rNoMatchFb.updaters.filter (fun u => u.supports (Token.str "a")) = [] ∧
    Ex.rNoMatchFb.resolveAll (Token.str "a") = Except.ok [fallbackWrapper Ex.fb] ∧
    Ex.rNoMatchFb.resolveAll (Token.str "a") ≠ Except.ok [] := by
  refine ⟨rfl, rfl, ?_⟩
  intro hcon
  have h2 : (Except.ok [fallbackWrapper Ex.fb] : Except RError (List (Handler Nat Nat))) =
      Except.ok ([] : List (Handler Nat Nat)) :=
    Eq.trans (by rfl) hcon
  simp at h2

/-- C5: with a non-empty registry, a fallback installed and a token matched
by no registered handler, `resolve` returns (and `resolveAll` returns the
singleton of) the synthesized wrapper, whose `supports` is constantly true
and whose `handle` delegates to the fallback action; no `UnsupportedType`
error is raised. -/
theorem fallback_substitution (α β : Type) (r : Resolver α β) (t : Token)
    (fbf : List α → Except String β)
    (hne : r.updaters ≠ [])
    (hfb : r.fallbackHandler = some fbf)
    (hnom : ∀ h ∈ r.updaters, h.supports t = false) :
    r.resolve t = Except.ok (fallbackWrapper fbf) ∧
    r.resolveAll t = Except.ok [fallbackWrapper fbf] ∧
    (∀ tok, (fallbackWrapper fbf).supports tok = true) ∧
    (∀ args, (fallbackWrapper fbf).handle args = fbf args) := by
  have hlen : 0 < r.updaters.length := List.length_pos.mpr hne
  have hlt : ¬ r.updaters.length < 1 := by omega
  have hcm : r.updaters.filter (fun u => u.supports t) = [] :=
    List.filter_eq_nil_iff.mpr (fun a ha => by simp [hnom a ha])
  refine ⟨?_, ?_, fun tok => rfl, fun args => rfl⟩
  · simp only [Resolver.resolve, if_neg hlt, hcm, sortByPriority_nil,
      List.head?_nil, hfb]
  · simp [Resolver.resolveAll, if_neg hlt, hcm, hfb]

/-- C5 witness: the concrete resolver with one never-matching handler and a
fallback installed substitutes the wrapper for any token. -/
theorem fallback_substitution_witness :
    Ex.rNoMatchFb.resolve (Token.str "zzz") = Except.ok (fallbackWrapper Ex.fb) ∧
    Ex.rNoMatchFb.resolveAll (Token.str "zzz") = Except.ok [fallbackWrapper Ex.fb] ∧
    (∀ tok, (fallbackWrapper Ex.fb).supports tok = true) ∧
    (∀ args, (fallbackWrapper Ex.fb).handle args = Ex.fb args) :=
  fallback_substitution Nat Nat Ex.rNoMatchFb (Token.str "zzz") Ex.fb
    (List.cons_ne_nil _ _) rfl (by decide)

/-- C1: when at least one registered handler matches the token, `resolve`
returns a matching handler of maximal priority, and precisely the earliest
registered matching handler among those of that maximal priority (the first
element of the stable priority-sorted matching subset). -/
theorem resolve_highest_priority_first (α β : Type) (r : Resolver α β) (t : Token)
    (hne : r.updaters ≠ [])
    (hm : r.updaters.filter (fun u => u.supports t) ≠ []) :
    ∃ h, r.resolve t = Except.ok h ∧
      (∀ x ∈ r.updaters.filter (fun u => u.supports t),
        getPriority x ≤ getPriority h) ∧
      (r.updaters.filter (fun u => u.supports t)).find?
        (fun x => decide (getPriority x = getPriority h)) = some h := by
  have hlen : 0 < r.updaters.length := List.length_pos.mpr hne
  have hlt : ¬ r.updaters.length < 1 := by omega
  have hs_ne : sortByPriority (r.updaters.filter (fun u => u.supports t)) ≠ [] := by
    intro hnil
    have hperm := sortByPriority_perm (r.updaters.filter (fun u => u.supports t))
    rw [hnil] at hperm
    exact hm hperm.symm.eq_nil
  obtain ⟨h, tl, hs_eq⟩ := List.exists_cons_of_ne_nil hs_ne
  refine ⟨h, ?_, ?_, ?_⟩
  · simp only [Resolver.resolve, if_neg hlt, hs_eq, List.head?_cons]
  · intro x hx
    have hx_s : x ∈ sortByPriority (r.updaters.filter (fun u => u.supports t)) :=
      (sortByPriority_perm _).mem_iff.mpr hx
    rw [hs_eq] at hx_s
    rcases List.mem_cons.mp hx_s with rfl | hx_tl
    · exact le_refl _
    · have hp := sortByPriority_pairwise (r.updaters.filter (fun u => u.supports t))
      rw [hs_eq, List.pairwise_cons] at hp
      exact hp.1 x hx_tl
  · rw [find_eq_head_filter, ← sortByPriority_filter_key, hs_eq,
      List.filter_cons_of_pos (by simp), List.head?_cons]

/-- C1 witness: in the concrete resolver `[hLow, hNope, hHigh]`, resolving
the token `"a"` yields `hHigh` (priority 100 beats 10; the non-matching
handler is excluded). -/
theorem resolve_highest_priority_first_witness :
    ∃ h, Ex.rMain.resolve (Token.str "a") = Except.ok h ∧
      (∀ x ∈ Ex.rMain.updaters.filter (fun u => u.supports (Token.str "a")),
        getPriority x ≤ getPriority h) ∧
      (Ex.rMain.updaters.filter (fun u => u.supports (Token.str "a"))).find?
        (fun x => decide (getPriority x = getPriority h)) = some h :=
  resolve_highest_priority_first Nat Nat Ex.rMain (Token.str "a")
    (List.cons_ne_nil _ _) (by
      intro hcon
      have hlen := congrArg List.length hcon
      simp [Ex.rMain, Ex.hLow, Ex.hNope, Ex.hHigh] at hlen)

/-- C2 corrected: when at least one registered handler matches the token, or
no fallback handler is installed, `resolveAll` returns exactly the registered
handlers whose `supports` returns true, in descending priority order, with
equal-priority handlers in registration order (characterized by the
per-priority filter equations). -/
theorem resolveAll_sorted_matching (α β : Type) (r : Resolver α β) (t : Token)
    (hne : r.updaters ≠ [])
    (hcase : r.updaters.filter (fun u => u.supports t) ≠ [] ∨
      r.fallbackHandler = none) :
    ∃ l, r.resolveAll t = Except.ok l ∧
      l.Perm (r.updaters.filter (fun u => u.supports t)) ∧
      l.Pairwise (fun a b => getPriority b ≤ getPriority a) ∧
      ∀ p : Int, l.filter (fun x => decide (getPriority x = p)) =
        (r.updaters.filter (fun u => u.supports t)).filter
          (fun x => decide (getPriority x = p)) := by
  have hlen : 0 < r.updaters.length := List.length_pos.mpr hne
  have hlt : ¬ r.updaters.length < 1 := by omega
  by_cases hcm : r.updaters.filter (fun u => u.supports t) = []
  · rcases hcase with hcase | hfb
    · exact absurd hcm hcase
    · refine ⟨[], ?_, ?_, List.Pairwise.nil, ?_⟩
      · simp [Resolver.resolveAll, if_neg hlt, hcm, hfb]
      · rw [hcm]
      · intro p
        rw [hcm]
  · have hlen0 : (r.updaters.filter (fun u => u.supports t)).length ≠ 0 := by
      intro hc
      exact hcm (List.length_eq_zero.mp hc)
    refine ⟨sortByPriority (r.updaters.filter (fun u => u.supports t)), ?_,
      sortByPriority_perm _, sortByPriority_pairwise _, fun p => sortByPriority_filter_key _ p⟩
    simp only [Resolver.resolveAll, if_neg hlt, if_neg hlen0]

/-- C2 witness: the concrete resolver `[hLow, hNope, hHigh]` on token `"a"`,
where the matching subset `[hLow, hHigh]` is non-empty. -/
theorem resolveAll_sorted_matching_witness :
    ∃ l, Ex.rMain.resolveAll (Token.str "a") = Except.ok l ∧
      l.Perm (Ex.rMain.updaters.filter (fun u => u.supports (Token.str "a"))) ∧
      l.Pairwise (fun a b => getPriority b ≤ getPriority a) ∧
      ∀ p : Int, l.filter (fun x => decide (getPriority x = p)) =
        (Ex.rMain.updaters.filter (fun u => u.supports (Token.str "a"))).filter
          (fun x => decide (getPriority x = p)) :=
  resolveAll_sorted_matching Nat Nat Ex.rMain (Token.str "a")
    (List.cons_ne_nil _ _) (Or.inl (by
      intro hcon
      have hlen := congrArg List.length hcon
      simp [Ex.rMain, Ex.hLow, Ex.hNope, Ex.hHigh] at hlen))

/-- C4: with a non-empty registry, `resolve` throws `UnsupportedType` exactly
when no registered handler matches and no fallback is installed; the message
embeds the token rendering (JSON serialization for a non-null object, plain
string conversion otherwise); and `resolveAll` never throws
`UnsupportedType`. -/
theorem resolve_unsupported_iff (α β : Type) (r : Resolver α β) (t : Token)
    (hne : r.updaters ≠ []) :
    ((∃ msg, r.resolve t = Except.error (RError.unsupportedType msg)) ↔
      ((∀ h ∈ r.updaters, h.supports t = false) ∧ r.fallbackHandler = none)) ∧
    (∀ msg, r.resolve t = Except.error (RError.unsupportedType msg) →
      msg = "Unsupported type: " ++
        (if typeofIsObject t = true ∧ t ≠ Token.null then jsonStringify t
          else tokenToString t)) ∧
    (∀ msg, r.resolveAll t ≠ Except.error (RError.unsupportedType msg)) := by
  have hlen : 0 < r.updaters.length := List.length_pos.mpr hne
  have hlt : ¬ r.updaters.length < 1 := by omega
  by_cases hcm : r.updaters.filter (fun u => u.supports t) = []
  · have hsort : sortByPriority (r.updaters.filter (fun u => u.supports t)) = [] := by
      rw [hcm]
      exact sortByPriority_nil
    have hall : ∀ h ∈ r.updaters, h.supports t = false := by
      intro h hmem
      have := List.filter_eq_nil_iff.mp hcm h hmem
      simpa using this
    cases hfb : r.fallbackHandler with
    | some fbf =>
        have hres : r.resolve t = Except.ok (fallbackWrapper fbf) := by
          simp only [Resolver.resolve, if_neg hlt, hsort, List.head?_nil, hfb]
        have hresAll : r.resolveAll t = Except.ok [fallbackWrapper fbf] := by
          simp [Resolver.resolveAll, if_neg hlt, hcm, hfb]
        refine ⟨?_, ?_, ?_⟩
        · constructor
          · rintro ⟨msg, hmsg⟩
            rw [hres] at hmsg
            exact absurd hmsg (by simp)
          · rintro ⟨-, hnone⟩
            exact absurd hnone (by simp)
        · intro msg hmsg
          rw [hres] at hmsg
          exact absurd hmsg (by simp)
        · intro msg hcon
          rw [hresAll] at hcon
          exact absurd hcon (by simp)
    | none =>
        have hres : r.resolve t =
            Except.error (RError.unsupportedType
              ("Unsupported type: " ++ renderUnsupported t)) := by
          simp only [Resolver.resolve, if_neg hlt, hsort, List.head?_nil, hfb]
        have hresAll : r.resolveAll t = Except.ok [] := by
          simp [Resolver.resolveAll, if_neg hlt, hcm, hfb]
        refine ⟨?_, ?_, ?_⟩
        · constructor
          · intro _
            exact ⟨hall, rfl⟩
          · intro _
            exact ⟨"Unsupported type: " ++ renderUnsupported t, hres⟩
        · intro msg hmsg
          rw [hres] at hmsg
          simp only [Except.error.injEq, RError.unsupportedType.injEq] at hmsg
          rw [← hmsg]
          rfl
        · intro msg hcon
          rw [hresAll] at hcon
          exact absurd hcon (by simp)
  · have hs_ne : sortByPriority (r.updaters.filter (fun u => u.supports t)) ≠ [] := by
      intro hnil
      have hperm := sortByPriority_perm (r.updaters.filter (fun u => u.supports t))
      rw [hnil] at hperm
      exact hcm hperm.symm.eq_nil
    obtain ⟨h, tl, hs_eq⟩ := List.exists_cons_of_ne_nil hs_ne
    have hres : r.resolve t = Except.ok h := by
      simp only [Resolver.resolve, if_neg hlt, hs_eq, List.head?_cons]
    have hlen0 : (r.updaters.filter (fun u => u.supports t)).length ≠ 0 := by
      intro hc
      exact hcm (List.length_eq_zero.mp hc)
    have hresAll : r.resolveAll t =
        Except.ok (sortByPriority (r.updaters.filter (fun u => u.supports t))) := by
      simp only [Resolver.resolveAll, if_neg hlt, if_neg hlen0]
    obtain ⟨u, hu⟩ := List.exists_mem_of_ne_nil _ hcm
    have hu_mem : u ∈ r.updaters := List.mem_of_mem_filter hu
    have hu_sup : u.supports t = true := by simpa using List.of_mem_filter hu
    refine ⟨?_, ?_, ?_⟩
    · constructor
      · rintro ⟨msg, hmsg⟩
        rw [hres] at hmsg
        exact absurd hmsg (by simp)
      · rintro ⟨hall, -⟩
        rw [hall u hu_mem] at hu_sup
        exact absurd hu_sup (by simp)
    · intro msg hmsg
      rw [hres] at hmsg
      exact absurd hmsg (by simp)
    · intro msg hcon
      rw [hresAll] at hcon
      exact absurd hcon (by simp)

/-- C4 witness: the concrete resolver with one never-matching handler and no
fallback, applied to a structured (object) token. -/
theorem resolve_unsupported_iff_witness :
    ((∃ msg, Ex.rNoMatchNoFb.resolve (Token.obj [("id", "x")]) =
        Except.error (RError.unsupportedType msg)) ↔
      ((∀ h ∈ Ex.rNoMatchNoFb.updaters,
          h.supports (Token.obj [("id", "x")]) = false) ∧
        Ex.rNoMatchNoFb.fallbackHandler = none)) ∧
    (∀ msg, Ex.rNoMatchNoFb.resolve (Token.obj [("id", "x")]) =
        Except.error (RError.unsupportedType msg) →
      msg = "Unsupported type: " ++
        (if typeofIsObject (Token.obj [("id", "x")]) = true ∧
            Token.obj [("id", "x")] ≠ Token.null
          then jsonStringify (Token.obj [("id", "x")])
          else tokenToString (Token.obj [("id", "x")]))) ∧
    (∀ msg, Ex.rNoMatchNoFb.resolveAll (Token.obj [("id", "x")]) ≠
      Except.error (RError.unsupportedType msg)) :=
  resolve_unsupported_iff Nat Nat Ex.rNoMatchNoFb (Token.obj [("id", "x")])
    (List.cons_ne_nil _ _)

/-- C6: when every invocation succeeds, `handleAll` and `handleAllAsync`
return a result sequence of the same length as `resolveAll`'s sorted
sequence whose i-th element is the return value of the i-th handler in that
order. -/
theorem handleAll_ordered_results (α β : Type) (r : Resolver α β) (t : Token)
    (args : List α) (targets : List (Handler α β))
    (hres : r.resolveAll t = Except.ok targets)
    (hok : ∀ h ∈ targets, (h.handle args).isOk = true) :
    ∃ vs, r.handleAll t args = Except.ok vs ∧
      r.handleAllAsync t args = Except.ok vs ∧
      vs.length = targets.length ∧
      ∀ i : Nat, (targets[i]?).map (fun h => h.handle args) =
        (vs[i]?).map Except.ok := by
  obtain ⟨vs, h1, h2, hlen, h3⟩ := mapHandle_promiseAll_ok args targets hok
  refine ⟨vs, ?_, ?_, hlen, h3⟩
  · simp only [Resolver.handleAll, hres, h1]
  · simp only [Resolver.handleAllAsync, hres, h2]

/-- C6 witness: the concrete resolver `[hLow, hNope, hHigh]` on token `"a"`
with sorted matches `[hHigh, hLow]`, all of whose invocations succeed. -/
theorem handleAll_ordered_results_witness :
    ∃ vs, Ex.rMain.handleAll (Token.str "a") [] = Except.ok vs ∧
      Ex.rMain.handleAllAsync (Token.str "a") [] = Except.ok vs ∧
      vs.length = [Ex.hHigh, Ex.hLow].length ∧
      ∀ i : Nat, ([Ex.hHigh, Ex.hLow][i]?).map (fun h => h.handle []) =
        (vs[i]?).map Except.ok :=
  handleAll_ordered_results Nat Nat Ex.rMain (Token.str "a") []
    [Ex.hHigh, Ex.hLow] rfl (by decide)

/-- C7: `handleAllSequential` runs `resolveAll`'s handlers in order; when the
first failure occurs at some handler, exactly that failure is observed, the
handlers before it are each invoked once and those after it are never
invoked; when all succeed, the full in-order result sequence is returned. -/
theorem handleAllSequential_stops_on_failure (α β : Type) (r : Resolver α β)
    (t : Token) (args : List α) (targets : List (Handler α β))
    (hres : r.resolveAll t = Except.ok targets) :
    (∀ pre hf post e, targets = pre ++ hf :: post →
        (∀ h ∈ pre, (h.handle args).isOk = true) →
        hf.handle args = Except.error e →
        r.handleAllSequential t args = Except.error (RError.handlerError e) ∧
        seqInvoked args targets = pre.length + 1) ∧
    ((∀ h ∈ targets, (h.handle args).isOk = true) →
      ∃ vs, r.handleAllSequential t args = Except.ok vs ∧
        vs.length = targets.length ∧
        ∀ i : Nat, (targets[i]?).map (fun h => h.handle args) =
          (vs[i]?).map Except.ok) := by
  constructor
  · intro pre hf post e hsplit hpre hfail
    constructor
    · rw [hsplit] at hres
      simp only [Resolver.handleAllSequential, hres,
        seqLoop_error args pre hf post e hpre hfail []]
    · rw [hsplit]
      exact seqInvoked_first_failure args pre hf post e hpre hfail
  · intro hok
    obtain ⟨vs, h1, hlen, h2⟩ := seqLoop_ok args targets hok []
    rw [List.nil_append] at h1
    refine ⟨vs, ?_, hlen, h2⟩
    simp only [Resolver.handleAllSequential, hres, h1]

/-- C7 witness: in the concrete resolver `[hOk10, hBoom, hTail]` the second
handler throws, the caller observes exactly that error, and only the first
two handlers are ever invoked. -/
theorem handleAllSequential_stops_on_failure_witness :
    Ex.rSeq.handleAllSequential (Token.str "a") [] =
      Except.error (RError.handlerError "boom") ∧
    seqInvoked ([] : List Nat) [Ex.hOk10, Ex.hBoom, Ex.hTail] = 2 :=
  (handleAllSequential_stops_on_failure Nat Nat Ex.rSeq (Token.str "a") []
      [Ex.hOk10, Ex.hBoom, Ex.hTail] rfl).1
    [Ex.hOk10] Ex.hBoom [Ex.hTail] "boom" rfl (by decide) rfl

/-- C8 counterexample: the failure of `handleAllSequential` cannot carry the
prefix of results produced before the failing handler.  Two resolvers whose
first handlers return different results (10 versus 20) produce literally
identical failure values when their second handler throws, and that failure
value is exactly the failing handler's bare error. -/
theorem sequential_failure_carries_no_prefix :
    Ex.rSeqA.handleAllSequential (Token.str "a") [] =
      Ex.rSeqB.handleAllSequential (Token.str "a") [] ∧
    Ex.hOk10.handle [] ≠ Ex.hOk20.handle [] ∧
    Ex.rSeqA.handleAllSequential (Token.str "a") [] =
      Except.error (RError.handlerError "boom") := by
  refine ⟨rfl, ?_, rfl⟩
  simp [Ex.hOk10, Ex.hOk20]

/-- C8 amended: when a handler invoked by `handleAllSequential` fails, the
failure returned to the caller is exactly the failing handler's error; the
results produced by the earlier handlers are discarded and are not part of
the failure. -/
theorem sequential_failure_is_bare_error (α β : Type) (r : Resolver α β)
    (t : Token) (args : List α) (pre : List (Handler α β)) (hf : Handler α β)
    (post : List (Handler α β)) (e : String)
    (hres : r.resolveAll t = Except.ok (pre ++ hf :: post))
    (hpre : ∀ h ∈ pre, (h.handle args).isOk = true)
    (hfail : hf.handle args = Except.error e) :
    r.handleAllSequential t args = Except.error (RError.handlerError e) := by
  simp only [Resolver.handleAllSequential, hres,
    seqLoop_error args pre hf post e hpre hfail []]

/-- C8 witness: in the concrete resolver `[hOk10, hBoom]` the failure value
is the bare error of the throwing handler. -/
theorem sequential_failure_is_bare_error_witness :
    Ex.rSeqA.handleAllSequential (Token.str "a") [] =
      Except.error (RError.handlerError "boom") :=
  sequential_failure_is_bare_error Nat Nat Ex.rSeqA (Token.str "a") []
    [Ex.hOk10] Ex.hBoom [] "boom" rfl (by decide) rfl

/-- C10: a `priority` property holding a non-numeric value (for example a
string) contributes priority 0, exactly as if the property were absent:
`getPriority` of such a handler is 0 and equals that of the priority-free
handler, and replacing every non-numeric priority by an absent one
(`stripHandler`) commutes with `resolve` and `resolveAll`, so only a
numerically-typed priority influences selection and ordering. -/
theorem nonNumeric_priority_as_absent (α β : Type) :
    (∀ (s : String) (sup : Token → Bool) (hd : List α → Except String β),
        getPriority
          { supports := sup, handle := hd, priority := some (PrioVal.str s) } = 0 ∧
        getPriority
          { supports := sup, handle := hd, priority := some (PrioVal.str s) } =
          getPriority
            ({ supports := sup, handle := hd, priority := none } : Handler α β)) ∧
    ∀ (r : Resolver α β) (t : Token),
      (stripResolver r).resolve t = (r.resolve t).map stripHandler ∧
      (stripResolver r).resolveAll t = (r.resolveAll t).map (List.map stripHandler) := by
  refine ⟨fun s sup hd => ⟨rfl, rfl⟩, ?_⟩
  intro r t
  have hlen_eq : (stripResolver r).updaters.length = r.updaters.length := by
    simp [stripResolver]
  have hfb_eq : (stripResolver r).fallbackHandler = r.fallbackHandler := rfl
  have hfilter : (stripResolver r).updaters.filter (fun u => u.supports t) =
      (r.updaters.filter (fun u => u.supports t)).map stripHandler :=
    filter_supports_map_strip t r.updaters
  by_cases hlt : r.updaters.length < 1
  · have hlt' : (stripResolver r).updaters.length < 1 := by rwa [hlen_eq]
    constructor
    · simp only [Resolver.resolve, if_pos hlt, if_pos hlt']
      rfl
    · simp only [Resolver.resolveAll, if_pos hlt, if_pos hlt']
      rfl
  · have hlt' : ¬ (stripResolver r).updaters.length < 1 := by rwa [hlen_eq]
    constructor
    · cases hh : (sortByPriority (r.updaters.filter (fun u => u.supports t))).head? with
      | some target =>
          have hh' : (sortByPriority ((stripResolver r).updaters.filter
              (fun u => u.supports t))).head? = some (stripHandler target) := by
            rw [hfilter, sortByPriority_map_strip, List.head?_map, hh]
            rfl
          have hres : r.resolve t = Except.ok target := by
            simp only [Resolver.resolve, if_neg hlt, hh]
          have hres' : (stripResolver r).resolve t =
              Except.ok (stripHandler target) := by
            simp only [Resolver.resolve, if_neg hlt', hh']
          rw [hres, hres']
          rfl
      | none =>
          have hh' : (sortByPriority ((stripResolver r).updaters.filter
              (fun u => u.supports t))).head? = none := by
            rw [hfilter, sortByPriority_map_strip, List.head?_map, hh]
            rfl
          cases hfb : r.fallbackHandler with
          | some fbf =>
              have hres : r.resolve t = Except.ok (fallbackWrapper fbf) := by
                simp only [Resolver.resolve, if_neg hlt, hh, hfb]
              have hres' : (stripResolver r).resolve t =
                  Except.ok (fallbackWrapper fbf) := by
                simp only [Resolver.resolve, if_neg hlt', hh', hfb_eq, hfb]
              rw [hres, hres']
              rfl
          | none =>
              have hres : r.resolve t = Except.error (RError.unsupportedType
                  ("Unsupported type: " ++ renderUnsupported t)) := by
                simp only [Resolver.resolve, if_neg hlt, hh, hfb]
              have hres' : (stripResolver r).resolve t =
                  Except.error (RError.unsupportedType
                    ("Unsupported type: " ++ renderUnsupported t)) := by
                simp only [Resolver.resolve, if_neg hlt', hh', hfb_eq, hfb]
              rw [hres, hres']
              rfl
    · by_cases hm0 : (r.updaters.filter (fun u => u.supports t)).length = 0
      · have hm0' : ((stripResolver r).updaters.filter
            (fun u => u.supports t)).length = 0 := by
          rw [hfilter, List.length_map]
          exact hm0
        cases hfb : r.fallbackHandler with
        | some fbf =>
            have hres : r.resolveAll t = Except.ok [fallbackWrapper fbf] := by
              simp only [Resolver.resolveAll, if_neg hlt, if_pos hm0, hfb]
            have hres' : (stripResolver r).resolveAll t =
                Except.ok [fallbackWrapper fbf] := by
              simp only [Resolver.resolveAll, if_neg hlt', if_pos hm0', hfb_eq, hfb]
            rw [hres, hres']
            rfl
        | none =>
            have hres : r.resolveAll t = Except.ok [] := by
              simp only [Resolver.resolveAll, if_neg hlt, if_pos hm0, hfb]
            have hres' : (stripResolver r).resolveAll t = Except.ok [] := by
              simp only [Resolver.resolveAll, if_neg hlt', if_pos hm0', hfb_eq, hfb]
            rw [hres, hres']
            rfl
      · have hm0' : ¬ ((stripResolver r).updaters.filter
            (fun u => u.supports t)).length = 0 := by
          rw [hfilter, List.length_map]
          exact hm0
        have hres : r.resolveAll t = Except.ok (sortByPriority
            (r.updaters.filter (fun u => u.supports t))) := by
          simp only [Resolver.resolveAll, if_neg hlt, if_neg hm0]
        have hres' : (stripResolver r).resolveAll t = Except.ok
            ((sortByPriority (r.updaters.filter (fun u => u.supports t))).map
              stripHandler) := by
          simp only [Resolver.resolveAll, if_neg hlt', if_neg hm0']
          rw [hfilter, sortByPriority_map_strip]
        rw [hres, hres']
        rfl

end ClassResolver
